import Mathlib

/-!
# Todo_app_cli: the task store of `main.go`

A shallow embedding of the task store (`TodoList`) of `main.go`, its operations
`add`, `List`, `Complete`, `Edit`, `Delete`, its persistence `Save` / `Load`, and
the command line of `main` with `parseID` and `requiredArgs`.

Conventions of the embedding:

* The Go type `int` is taken at its 64-bit width.  Values are integers of `Int`;
  the two places where the program computes a new `int` (`t.NextID++` in `add`
  and `maxID + 1` in `Load`) go through `wrapInt`, the two-complement wrap-around
  that Go defines for signed overflow.
* `time.Now()` is an explicit argument `now` of the operations that read the clock.
  A timestamp is the instant it denotes, counted in nanoseconds from the zero
  value of `time.Time`.
* Every operation returns the new store together with the text it prints on
  standard output (`fmt.Println` separates its operands by one blank and ends
  the line).
* `os.Exit` is the constructor `Outcome.exit` carrying the exit code.
* A Go `string` is a `String`: arguments, titles and file contents are Unicode
  text, that is, valid UTF-8.
-/

namespace TodoApp

/-! ## Machine integers -/

/-- Largest value of the Go type `int` (64 bit). -/
def maxInt : Int := 9223372036854775807

/-- Smallest value of the Go type `int` (64 bit). -/
def minInt : Int := -9223372036854775808

/-- Result of a 64-bit signed computation whose exact value is `z`: Go wraps around. -/
def wrapInt (z : Int) : Int :=
  (z + 9223372036854775808) % 18446744073709551616 - 9223372036854775808

/-- Instant of a `time.Time` value, in nanoseconds from the zero time. -/
abbrev Timestamp := Int

/-! ## Data model -/

/-- Struct `Todo` of `main.go`; `CompletedAt` is the pointer field, `none` for `nil`. -/
structure Todo where
  ID : Int
  Title : String
  Completed : Bool
  CreatedAt : Timestamp
  CompletedAt : Option Timestamp
deriving DecidableEq, Repr

/-- Struct `TodoList` of `main.go`: the counter `NextID` and the slice `Items`. -/
structure TodoList where
  NextID : Int
  Items : List Todo
deriving DecidableEq, Repr

/-- Result of a piece of the program that may call `os.Exit`: either it returns
`val` having printed `out`, or the process ends with `code` having printed `out`. -/
inductive Outcome (α : Type) where
  | ok (val : α) (out : String)
  | exit (code : Nat) (out : String)
deriving DecidableEq, Repr

/-! ## Operations of the store -/

/-- Method `add`: builds the new `Todo` from the counter, appends it, increments
the counter and prints the confirmation. -/
def add (t : TodoList) (title : String) (now : Timestamp) : TodoList × String :=
  let todo : Todo :=
    { ID := t.NextID, Title := title, Completed := false, CreatedAt := now, CompletedAt := none }
  ({ NextID := wrapInt (t.NextID + 1), Items := t.Items ++ [todo] },
   "✅ Todo added: " ++ title ++ "\n")

/-- Scan `for i := range t.Items` with the test `t.Items[i].ID == id`: the index
`i` at which the loop body is entered first, counted from `i`, and the task there;
`none` when the loop runs to its end. -/
def findByID (id : Int) : List Todo → Nat → Option (Nat × Todo)
  | [], _ => none
  | todo :: rest, i => if todo.ID = id then some (i, todo) else findByID id rest (i + 1)

/-- Method `Complete`. -/
def Complete (t : TodoList) (id : Int) (now : Timestamp) : TodoList × String :=
  match findByID id t.Items 0 with
  | some (i, todo) =>
      if todo.Completed then
        (t, "Todo already completed.\n")
      else
        ({ t with Items := t.Items.set i { todo with Completed := true, CompletedAt := some now } },
         " 🎯Todo marked as completed: " ++ todo.Title ++ "\n")
  | none => (t, "⚠️Todo not found. \n")

/-- Method `Edit`. -/
def Edit (t : TodoList) (id : Int) (newTitle : String) : TodoList × String :=
  match findByID id t.Items 0 with
  | some (i, todo) =>
      ({ t with Items := t.Items.set i { todo with Title := newTitle } }, "✏️Todo updated.\n")
  | none => (t, "⚠️Todo not found.\n")

/-- Method `Delete`: `append(t.Items[:i], t.Items[i+1:]...)` at the first match. -/
def Delete (t : TodoList) (id : Int) : TodoList × String :=
  match findByID id t.Items 0 with
  | some (i, _) =>
      ({ t with Items := t.Items.take i ++ t.Items.drop (i + 1) }, " 🗑️ Todo deleted.\n")
  | none => (t, "Todo not found.\n")

/-! ## Persistence -/

/-- JSON object written for one `Todo`: one entry per struct tag, `none` for a key
that is not in the object. -/
structure TodoJSON where
  id : Option Int
  title : Option String
  completed : Option Bool
  created_at : Option Timestamp
  completed_at : Option Timestamp
deriving DecidableEq, Repr

/-- Top-level JSON object of the file: the keys `next_id` and `items`. -/
structure TodoListJSON where
  next_id : Option Int
  items : Option (List TodoJSON)
deriving DecidableEq, Repr

/-- What `os.Open(filename)` followed by `decoder.Decode(t)` meets. -/
inductive FileState where
  | notExist
  | openError (err : String)
  | malformed (err : String)
  | holds (doc : TodoListJSON)
deriving DecidableEq, Repr

/-- Encoding of a `Todo` by `encoding/json` under the struct tags, when `Encode`
succeeds: every field is written, `completed_at` is left out for a nil pointer
(`omitempty`).  The title is Unicode text here, which the encoder writes and the
decoder reads back as it is; the replacement of bytes that are not valid UTF-8 by
U+FFFD has no counterpart in this model. -/
def encodeTodo (todo : Todo) : TodoJSON :=
  { id := some todo.ID, title := some todo.Title, completed := some todo.Completed,
    created_at := some todo.CreatedAt, completed_at := todo.CompletedAt }

/-- Encoding of the store: `next_id` and `items`. -/
def encodeList (t : TodoList) : TodoListJSON :=
  { next_id := some t.NextID, items := some (t.Items.map encodeTodo) }

/-- Decoding of one JSON object into the `Todo` value `old` that the decoder finds
in place: a key that is present sets its field, a key that is absent leaves the
field of `old` as it was (for `completed_at`: the pointer of `old`). -/
def decodeTodoInto (old : Todo) (j : TodoJSON) : Todo :=
  { ID := j.id.getD old.ID, Title := j.title.getD old.Title,
    Completed := j.completed.getD old.Completed,
    CreatedAt := j.created_at.getD old.CreatedAt,
    CompletedAt := match j.completed_at with
      | some c => some c
      | none => old.CompletedAt }

/-- Decoding of one array element into a fresh `Todo`: a key that is absent leaves
the zero value of its field. -/
def decodeTodo (j : TodoJSON) : Todo :=
  decodeTodoInto { ID := 0, Title := "", Completed := false, CreatedAt := 0,
                   CompletedAt := none } j

/-- Decoding of the JSON array into the slice `old` of the receiver: `encoding/json`
decodes element `i` of the array into the element `i` that the receiver holds, and
into a zero `Todo` beyond the length of `old` (a slice without spare capacity, as
the nil slice of the zero receiver); the result has the length of the array. -/
def decodeItems : List Todo → List TodoJSON → List Todo
  | _, [] => []
  | [], j :: js => decodeTodo j :: decodeItems [] js
  | o :: os, j :: js => decodeTodoInto o j :: decodeItems os js

/-- Value of the receiver after `decoder.Decode(t)` succeeds: a key that is absent
leaves the field of `t` as it was, and the array `items` is decoded into the
elements that `t.Items` holds. -/
def decodeInto (t : TodoList) (j : TodoListJSON) : TodoList :=
  { NextID := j.next_id.getD t.NextID,
    Items := match j.items with
      | some xs => decodeItems t.Items xs
      | none => t.Items }

/-- Helper `errorChecker` on a non-nil error: prints and exits with code 1. -/
def errorChecker {α : Type} (msg err : String) : Outcome α :=
  .exit 1 ("❌ " ++ msg ++ " " ++ err ++ "\n")

/-- Method `Save`: `createErr` is the error of `os.Create`, `encodeErr` the error
of `encoder.Encode(t)`, `none` for nil (`Encode` returns an error, among other
causes, for a timestamp whose year is outside 0 to 9999).  The result is the
content of the file. -/
def Save (t : TodoList) (createErr encodeErr : Option String) : Outcome FileState :=
  match createErr with
  | some err => errorChecker "failed to save file" err
  | none =>
      match encodeErr with
      | some err => errorChecker "Failed to write to JSON:" err
      | none => .ok (.holds (encodeList t)) ""

/-- Loop of `Load` over `t.Items` that raises `maxID` to every larger `ID`. -/
def maxIDLoop (maxID : Int) : List Todo → Int
  | [] => maxID
  | todo :: rest => maxIDLoop (if todo.ID > maxID then todo.ID else maxID) rest

/-- Normalisation of the counter at the end of `Load`, on the decoded store. -/
def normalize (t : TodoList) : TodoList :=
  let maxID := maxIDLoop 0 t.Items
  let t1 : TodoList := if t.NextID ≤ maxID then { t with NextID := wrapInt (maxID + 1) } else t
  if t1.NextID = 0 then { t1 with NextID := 1 } else t1

/-- Method `Load` on the receiver `t`. -/
def Load (t : TodoList) (file : FileState) : Outcome TodoList :=
  match file with
  | .notExist => .ok { NextID := 1, Items := [] } ""
  | .openError err => errorChecker "failed to open file: " err
  | .malformed err => errorChecker "failed to decode JSON" err
  | .holds doc => .ok (normalize (decodeInto t doc)) ""

/-- The store after `n` calls of `add` with the titles and clock readings of `calls`. -/
def addAll (t : TodoList) : List (String × Timestamp) → TodoList
  | [] => t
  | (title, now) :: rest => addAll (add t title now).1 rest

/-- The list `l` splits as `pre ++ todo :: post` where `todo` is the first task of
`l` whose id is `id`. -/
def FirstWithID (l : List Todo) (id : Int) (pre : List Todo) (todo : Todo)
    (post : List Todo) : Prop :=
  l = pre ++ todo :: post ∧ todo.ID = id ∧ ∀ x ∈ pre, x.ID ≠ id

instance (l : List Todo) (id : Int) (pre : List Todo) (todo : Todo) (post : List Todo) :
    Decidable (FirstWithID l id pre todo post) := by
  unfold FirstWithID
  infer_instance

/-- The counter is strictly greater than every id in the store. -/
def CounterAbove (t : TodoList) : Prop :=
  ∀ todo ∈ t.Items, todo.ID < t.NextID

instance (t : TodoList) : Decidable (CounterAbove t) := by
  unfold CounterAbove
  infer_instance

/-! ## Listing -/

/-- Text printed by the body of the loop of method `List` for the task at index `i`:
the `Printf` of the entry, the optional `Printf` of the completion time and the
final `Println`.  `formatTime` is `time.Time.Format` with the layout of the source. -/
def listEntry (formatTime : Timestamp → String) (i : Nat) (todo : Todo) : String :=
  let status := if todo.Completed then "✅ Done" else "⏳ Pending"
  toString (i + 1) ++ ". " ++ todo.Title ++ " | (ID:" ++ toString todo.ID ++ ") | " ++ status
    ++ " | Created: " ++ formatTime todo.CreatedAt
    ++ (match todo.CompletedAt with
        | some c => " | Finished: " ++ formatTime c
        | none => "")
    ++ "\n"

/-- Loop `for i, todo := range t.Items` of method `List`, from index `i`: the texts
printed by the successive iterations. -/
def listLoop (formatTime : Timestamp → String) : List Todo → Nat → List String
  | [], _ => []
  | todo :: rest, i => listEntry formatTime i todo :: listLoop formatTime rest (i + 1)

/-- Method `List` of `TodoList`: the store it leaves and the text it prints. -/
def ListItems (t : TodoList) (formatTime : Timestamp → String) : TodoList × String :=
  if t.Items.length = 0 then (t, "No todos yet!\n")
  else (t, String.join (listLoop formatTime t.Items 0))

/-! ## Command line -/

/-- Table `isSpace` of package `fmt`. -/
def isSpace (c : Char) : Bool :=
  let n := c.toNat
  decide ((9 ≤ n ∧ n ≤ 13) ∨ n = 32 ∨ n = 133 ∨ n = 160 ∨ n = 5760 ∨ (8192 ≤ n ∧ n ≤ 8202)
    ∨ n = 8232 ∨ n = 8233 ∨ n = 8239 ∨ n = 8287 ∨ n = 12288)

/-- Leading space skipped by `Sscanf` before a verb; a newline there is an error. -/
def skipSpace : List Char → Option (List Char)
  | [] => some []
  | c :: rest =>
      if c.toNat = 10 then none
      else if isSpace c then skipSpace rest
      else some (c :: rest)

/-- Value that `fmt.Sscanf(arg, "%d", &id)` stores in `id`, `none` when it returns an
error: leading space is skipped, an optional sign and then the longest run of decimal
digits is read, which must not be empty and must denote a 64-bit value; what follows
the digits is not looked at. -/
def scanInt (arg : String) : Option Int :=
  match skipSpace arg.toList with
  | none => none
  | some [] => none
  | some (c :: rest) =>
      let body := if c = '+' ∨ c = '-' then rest else c :: rest
      let tok := body.takeWhile Char.isDigit
      if tok = [] then none
      else
        let v : Int := ((tok.foldl (fun n d => 10 * n + (d.toNat - 48)) 0 : Nat) : Int)
        let i := if c = '-' then -v else v
        if minInt ≤ i ∧ i ≤ maxInt then some i else none

/-- Function `parseID`; `scanErr arg` is the text of the error that `Sscanf` returns. -/
def parseID (scanErr : String → String) (arg : String) : Outcome Int :=
  match scanInt arg with
  | some id => .ok id ""
  | none => errorChecker "Invalid ID:" (scanErr arg)

/-- Function `requiredArgs` on the argument vector `args` (`os.Args`). -/
def requiredArgs (args : List String) (numarg : Nat) (usage : String) : Outcome Unit :=
  if args.length < numarg then .exit 1 ("Usage: " ++ usage ++ "\n") else .ok () ""

/-- Value of `strings.ToLower` on a text whose letters are all ASCII: the letters
`A` to `Z` become `a` to `z`, every other character stays. -/
def asciiLower (s : String) : String :=
  ⟨s.data.map Char.toLower⟩

/-- What one run of the program meets outside its argument vector: the state of
`todos.json` at `Load`, the clock, the errors of `os.Create` and `Encode` at `Save`,
and the library functions `strings.ToLower`, `time.Time.Format` (with the layout of
the source) and the error text of `Sscanf`. -/
structure Env where
  file : FileState
  now : Timestamp
  createErr : Option String
  encodeErr : Option String
  toLower : String → String
  formatTime : Timestamp → String
  scanErr : String → String

/-- End of one run: exit code, text printed, the value of `todos` when the process
ended (`none` when `Load` ended it) and the content written by a `Save` that
returned (`none` when `Save` was not reached or ended the process). -/
structure RunResult where
  code : Nat
  out : String
  store : Option TodoList
  saved : Option FileState
deriving DecidableEq, Repr

/-- The `switch command` of `main` on the loaded store. -/
def runCommand (env : Env) (args : List String) (command : String) (todos : TodoList) :
    Outcome TodoList :=
  if command = "add" then
    match requiredArgs args 3 "go run main.go add <title>" with
    | .exit code out => .exit code out
    | .ok _ _ =>
        let r := add todos (" ".intercalate (args.drop 2)) env.now
        .ok r.1 r.2
  else if command = "list" then
    let r := ListItems todos env.formatTime
    .ok r.1 r.2
  else if command = "complete" then
    match requiredArgs args 3 "go run main.go complete <id>" with
    | .exit code out => .exit code out
    | .ok _ _ =>
        match parseID env.scanErr (args.getD 2 "") with
        | .exit code out => .exit code out
        | .ok id _ =>
            let r := Complete todos id env.now
            .ok r.1 r.2
  else if command = "edit" then
    match requiredArgs args 4 "go run main.go edit <id> <new title>" with
    | .exit code out => .exit code out
    | .ok _ _ =>
        match parseID env.scanErr (args.getD 2 "") with
        | .exit code out => .exit code out
        | .ok id _ =>
            let r := Edit todos id (" ".intercalate (args.drop 3))
            .ok r.1 r.2
  else if command = "delete" then
    match requiredArgs args 3 "go run main.go delete <id>" with
    | .exit code out => .exit code out
    | .ok _ _ =>
        match parseID env.scanErr (args.getD 2 "") with
        | .exit code out => .exit code out
        | .ok id _ =>
            let r := Delete todos id
            .ok r.1 r.2
  else
    .ok todos ("⚠️Unknown command: " ++ command ++ "\n")

/-- Function `main` with the argument vector `args` (`os.Args`, the program name
first): `Load` into the zero value of `TodoList`, the usage line when no command is
given, else the command and then `Save`.  `Save` always returns nil, so the
`errorWarner` around it never prints. -/
def main (env : Env) (args : List String) : RunResult :=
  match Load { NextID := 0, Items := [] } env.file with
  | .exit code out => { code := code, out := out, store := none, saved := none }
  | .ok todos out0 =>
      if args.length < 2 then
        { code := 0,
          out := out0 ++ "Usage: go run main.go [add|list|complete|edit|delete] ...\n",
          store := some todos, saved := none }
      else
        match runCommand env args (env.toLower (args.getD 1 "")) todos with
        | .exit code out =>
            { code := code, out := out0 ++ out, store := some todos, saved := none }
        | .ok todos2 out =>
            match Save todos2 env.createErr env.encodeErr with
            | .exit code out2 =>
                { code := code, out := out0 ++ out ++ out2, store := some todos2, saved := none }
            | .ok file out2 =>
                { code := 0, out := out0 ++ out ++ out2, store := some todos2,
                  saved := some file }

/-! ## Sequences of calls -/

/-- One call of an operation of the store, with its arguments and clock reading. -/
inductive Op where
  | add (title : String) (now : Timestamp)
  | complete (id : Int) (now : Timestamp)
  | edit (id : Int) (newTitle : String)
  | delete (id : Int)
deriving DecidableEq, Repr

/-- The store after one call. -/
def applyOp (t : TodoList) : Op → TodoList
  | .add title now => (add t title now).1
  | .complete id now => (Complete t id now).1
  | .edit id newTitle => (Edit t id newTitle).1
  | .delete id => (Delete t id).1

/-- The store after a sequence of calls. -/
def runOps (t : TodoList) : List Op → TodoList
  | [] => t
  | op :: rest => runOps (applyOp t op) rest

/-- A task has a completion timestamp exactly when its completed flag is set. -/
def StampIffCompleted (todo : Todo) : Prop :=
  todo.CompletedAt.isSome = todo.Completed

instance (todo : Todo) : Decidable (StampIffCompleted todo) := by
  unfold StampIffCompleted
  infer_instance

/-! ## Auxiliary facts -/


theorem wrapInt_of_range (z : Int) (hlo : minInt ≤ z) (hhi : z ≤ maxInt) : wrapInt z = z := by
  unfold minInt at hlo
  unfold maxInt at hhi
  unfold wrapInt
  omega

theorem findByID_eq_none (id : Int) (l : List Todo) (k : Nat) :
    findByID id l k = none ↔ ∀ x ∈ l, x.ID ≠ id := by
  induction l generalizing k with
  | nil => simp [findByID]
  | cons a rest ih =>
    by_cases h : a.ID = id
    · simp [findByID, h]
    · simp [findByID, h, ih]

theorem findByID_first (id : Int) (pre : List Todo) (todo : Todo) (post : List Todo) (k : Nat)
    (hpre : ∀ x ∈ pre, x.ID ≠ id) (hid : todo.ID = id) :
    findByID id (pre ++ todo :: post) k = some (k + pre.length, todo) := by
  induction pre generalizing k with
  | nil => simp [findByID, hid]
  | cons a rest ih =>
    have ha : a.ID ≠ id := hpre a (List.mem_cons_self a rest)
    have hrest : ∀ x ∈ rest, x.ID ≠ id := fun x hx => hpre x (List.mem_cons_of_mem a hx)
    have hk : k + 1 + rest.length = k + (rest.length + 1) := by omega
    simp [findByID, ha, ih (k + 1) hrest, hk]

theorem exists_first_with_id (id : Int) (l : List Todo) (h : ∃ x ∈ l, x.ID = id) :
    ∃ pre todo post, FirstWithID l id pre todo post := by
  unfold FirstWithID
  induction l with
  | nil => simp at h
  | cons a rest ih =>
    by_cases ha : a.ID = id
    · exact ⟨[], a, rest, rfl, ha, by simp⟩
    · have hrest : ∃ x ∈ rest, x.ID = id := by
        obtain ⟨x, hx, hxid⟩ := h
        rcases List.mem_cons.mp hx with rfl | hx
        · exact absurd hxid ha
        · exact ⟨x, hx, hxid⟩
      obtain ⟨pre, todo, post, hl, hid, hpre⟩ := ih hrest
      refine ⟨a :: pre, todo, post, by simp [hl], hid, ?_⟩
      intro x hx
      rcases List.mem_cons.mp hx with rfl | hx
      · exact ha
      · exact hpre x hx

theorem set_at_split (pre : List Todo) (todo new : Todo) (post : List Todo) :
    (pre ++ todo :: post).set pre.length new = pre ++ new :: post := by
  induction pre with
  | nil => rfl
  | cons a rest ih => simp [List.set, ih]

theorem take_drop_at_split (pre : List Todo) (todo : Todo) (post : List Todo) :
    (pre ++ todo :: post).take pre.length ++ (pre ++ todo :: post).drop (pre.length + 1)
      = pre ++ post := by
  induction pre with
  | nil => simp
  | cons a rest ih => simp

theorem addAll_ids (calls : List (String × Timestamp)) (t : TodoList)
    (hlo : minInt ≤ t.NextID) (hhi : t.NextID + calls.length ≤ maxInt) :
    (addAll t calls).NextID = t.NextID + calls.length ∧
    (addAll t calls).Items.map (fun todo => todo.ID)
      = t.Items.map (fun todo => todo.ID)
          ++ (List.range calls.length).map (fun (k : Nat) => t.NextID + (k : Int)) ∧
    (addAll t calls).Items.map (fun todo => (todo.Title, todo.CreatedAt))
      = t.Items.map (fun todo => (todo.Title, todo.CreatedAt)) ++ calls := by
  induction calls generalizing t with
  | nil => simp [addAll]
  | cons c rest ih =>
    obtain ⟨title, now⟩ := c
    have hlen : ((title, now) :: rest).length = rest.length + 1 := rfl
    rw [hlen] at hhi ⊢
    push_cast at hhi
    have hw : wrapInt (t.NextID + 1) = t.NextID + 1 :=
      wrapInt_of_range _ (by omega) (by omega)
    have hnext : (add t title now).1.NextID = t.NextID + 1 := by simp [add, hw]
    have hitems : (add t title now).1.Items = t.Items ++
        [{ ID := t.NextID, Title := title, Completed := false, CreatedAt := now,
           CompletedAt := none }] := by simp [add]
    obtain ⟨h1, h2, h3⟩ := ih (add t title now).1 (by rw [hnext]; omega) (by rw [hnext]; omega)
    simp only [addAll]
    refine ⟨?_, ?_, ?_⟩
    · rw [h1, hnext]; push_cast; ring
    · rw [h2, hnext, hitems, List.range_succ_eq_map]
      simp only [List.map_append, List.map_cons, List.map_nil, List.append_assoc,
        List.singleton_append, List.map_map, Nat.cast_zero, add_zero]
      congr 2
      apply List.map_congr_left
      intro k _
      simp only [Function.comp, Nat.succ_eq_add_one]
      push_cast
      ring
    · rw [h3, hitems]
      simp

theorem findByID_of_first {l : List Todo} {id : Int} {pre : List Todo} {todo : Todo}
    {post : List Todo} (h : FirstWithID l id pre todo post) :
    findByID id l 0 = some (pre.length, todo) := by
  obtain ⟨hl, hid, hpre⟩ := h
  rw [hl, findByID_first id pre todo post 0 hpre hid]
  simp

theorem first_unique {l : List Todo} {id : Int} {pre pre2 : List Todo} {todo todo2 : Todo}
    {post post2 : List Todo} (h : FirstWithID l id pre todo post)
    (h2 : FirstWithID l id pre2 todo2 post2) : pre = pre2 ∧ todo = todo2 ∧ post = post2 := by
  have e := findByID_of_first h
  rw [findByID_of_first h2] at e
  simp only [Option.some.injEq, Prod.mk.injEq] at e
  obtain ⟨hlen, htodo⟩ := e
  have hl : pre2 ++ todo2 :: post2 = pre ++ todo :: post := h2.1.symm.trans h.1
  have hp := List.append_inj hl hlen
  exact ⟨hp.1.symm, htodo.symm, (List.cons.inj hp.2).2.symm⟩

theorem mem_of_first {l : List Todo} {id : Int} {pre : List Todo} {todo : Todo}
    {post : List Todo} (h : FirstWithID l id pre todo post) : todo ∈ l ∧ todo.ID = id := by
  refine ⟨?_, h.2.1⟩
  rw [h.1]
  simp

theorem Complete_at_first {t : TodoList} {id : Int} {pre : List Todo} {todo : Todo}
    {post : List Todo} (now : Timestamp) (h : FirstWithID t.Items id pre todo post) :
    Complete t id now =
      if todo.Completed then (t, "Todo already completed.\n")
      else ({ NextID := t.NextID,
              Items := pre ++ { ID := todo.ID, Title := todo.Title, Completed := true,
                                CreatedAt := todo.CreatedAt, CompletedAt := some now } :: post },
            " 🎯Todo marked as completed: " ++ todo.Title ++ "\n") := by
  have hf := findByID_of_first h
  simp only [Complete, hf]
  split
  · rfl
  · rw [h.1, set_at_split]

theorem Edit_at_first {t : TodoList} {id : Int} {pre : List Todo} {todo : Todo}
    {post : List Todo} (newTitle : String) (h : FirstWithID t.Items id pre todo post) :
    Edit t id newTitle =
      ({ NextID := t.NextID,
         Items := pre ++ { ID := todo.ID, Title := newTitle, Completed := todo.Completed,
                           CreatedAt := todo.CreatedAt, CompletedAt := todo.CompletedAt } :: post },
       "✏️Todo updated.\n") := by
  have hf := findByID_of_first h
  simp only [Edit, hf]
  rw [h.1, set_at_split]

theorem Delete_at_first {t : TodoList} {id : Int} {pre : List Todo} {todo : Todo}
    {post : List Todo} (h : FirstWithID t.Items id pre todo post) :
    Delete t id = ({ NextID := t.NextID, Items := pre ++ post }, " 🗑️ Todo deleted.\n") := by
  have hf := findByID_of_first h
  simp only [Delete, hf]
  rw [h.1, take_drop_at_split]

theorem Complete_not_found {t : TodoList} {id : Int} (now : Timestamp)
    (h : ∀ x ∈ t.Items, x.ID ≠ id) : Complete t id now = (t, "⚠️Todo not found. \n") := by
  simp only [Complete, (findByID_eq_none id t.Items 0).mpr h]

theorem Edit_not_found {t : TodoList} {id : Int} (newTitle : String)
    (h : ∀ x ∈ t.Items, x.ID ≠ id) : Edit t id newTitle = (t, "⚠️Todo not found.\n") := by
  simp only [Edit, (findByID_eq_none id t.Items 0).mpr h]

theorem Delete_not_found {t : TodoList} {id : Int}
    (h : ∀ x ∈ t.Items, x.ID ≠ id) : Delete t id = (t, "Todo not found.\n") := by
  simp only [Delete, (findByID_eq_none id t.Items 0).mpr h]

theorem maxIDLoop_ge_init (a : Int) (l : List Todo) : a ≤ maxIDLoop a l := by
  induction l generalizing a with
  | nil => simp [maxIDLoop]
  | cons x rest ih =>
    simp only [maxIDLoop]
    split
    · exact le_trans (by omega) (ih x.ID)
    · exact ih a

theorem maxIDLoop_ge_mem (a : Int) (l : List Todo) : ∀ x ∈ l, x.ID ≤ maxIDLoop a l := by
  induction l generalizing a with
  | nil => simp
  | cons y rest ih =>
    intro x hx
    simp only [maxIDLoop]
    rcases List.mem_cons.mp hx with rfl | hx
    · split
      · exact maxIDLoop_ge_init _ rest
      · exact le_trans (by omega) (maxIDLoop_ge_init a rest)
    · exact ih _ x hx

theorem maxIDLoop_init_or_mem (a : Int) (l : List Todo) :
    maxIDLoop a l = a ∨ ∃ x ∈ l, x.ID = maxIDLoop a l := by
  induction l generalizing a with
  | nil => simp [maxIDLoop]
  | cons y rest ih =>
    simp only [maxIDLoop]
    split
    · rcases ih y.ID with h | ⟨x, hx, hxid⟩
      · exact Or.inr ⟨y, List.mem_cons_self y rest, h.symm⟩
      · exact Or.inr ⟨x, List.mem_cons_of_mem y hx, hxid⟩
    · rcases ih a with h | ⟨x, hx, hxid⟩
      · exact Or.inl h
      · exact Or.inr ⟨x, List.mem_cons_of_mem y hx, hxid⟩

theorem maxIDLoop_eq_of_max (l : List Todo) (m : Int) (hmem : ∃ x ∈ l, x.ID = m)
    (hmax : ∀ x ∈ l, x.ID ≤ m) (h0 : 0 ≤ m) : maxIDLoop 0 l = m := by
  obtain ⟨x, hx, hxid⟩ := hmem
  have h1 : m ≤ maxIDLoop 0 l := hxid ▸ maxIDLoop_ge_mem 0 l x hx
  rcases maxIDLoop_init_or_mem 0 l with h | ⟨y, hy, hyid⟩
  · omega
  · have := hmax y hy
    omega

theorem maxIDLoop_zero_of_neg (l : List Todo) (hneg : ∀ x ∈ l, x.ID ≤ 0) :
    maxIDLoop 0 l = 0 := by
  have h1 := maxIDLoop_ge_init 0 l
  rcases maxIDLoop_init_or_mem 0 l with h | ⟨y, hy, hyid⟩
  · exact h
  · have := hneg y hy
    omega

theorem normalize_of_above (t : TodoList) (hpos : 0 < t.NextID) (h : CounterAbove t) :
    normalize t = t := by
  have hlt : maxIDLoop 0 t.Items < t.NextID := by
    rcases maxIDLoop_init_or_mem 0 t.Items with h0 | ⟨y, hy, hyid⟩
    · omega
    · rw [← hyid]; exact h y hy
  have h1 : ¬ t.NextID ≤ maxIDLoop 0 t.Items := by omega
  have h2 : ¬ t.NextID = 0 := by omega
  simp [normalize, h1, h2]

theorem normalize_of_le (t : TodoList) (hle : t.NextID ≤ maxIDLoop 0 t.Items)
    (hlt : maxIDLoop 0 t.Items < maxInt) :
    normalize t = { NextID := maxIDLoop 0 t.Items + 1, Items := t.Items } := by
  have h0 := maxIDLoop_ge_init 0 t.Items
  have hw : wrapInt (maxIDLoop 0 t.Items + 1) = maxIDLoop 0 t.Items + 1 :=
    wrapInt_of_range _ (by unfold minInt; omega) (by omega)
  have h2 : ¬ maxIDLoop 0 t.Items + 1 = 0 := by omega
  simp [normalize, hle, hw, h2]

theorem normalize_items (t : TodoList) : (normalize t).Items = t.Items := by
  unfold normalize
  simp only
  split <;> split <;> rfl

theorem decodeTodo_encodeTodo (todo : Todo) : decodeTodo (encodeTodo todo) = todo := by
  cases todo with
  | mk id title completed created completedAt =>
    cases completedAt <;> rfl

theorem decodeItems_fresh (items : List Todo) :
    decodeItems [] (items.map encodeTodo) = items := by
  induction items with
  | nil => rfl
  | cons a rest ih => simp only [List.map_cons, decodeItems, decodeTodo_encodeTodo, ih]

theorem decodeInto_encodeList (n : Int) (t : TodoList) :
    decodeInto { NextID := n, Items := [] } (encodeList t) = t := by
  cases t with
  | mk c items =>
    simp only [decodeInto, encodeList, Option.getD_some, decodeItems_fresh]

theorem Complete_ids (t : TodoList) (id : Int) (now : Timestamp) :
    (Complete t id now).1.NextID = t.NextID ∧
    (Complete t id now).1.Items.map (fun x => x.ID) = t.Items.map (fun x => x.ID) := by
  by_cases h : ∃ x ∈ t.Items, x.ID = id
  · obtain ⟨pre, todo, post, hf⟩ := exists_first_with_id id t.Items h
    rw [Complete_at_first now hf]
    split
    · exact ⟨rfl, rfl⟩
    · refine ⟨rfl, ?_⟩
      rw [hf.1]
      simp
  · have h2 : ∀ x ∈ t.Items, x.ID ≠ id := fun x hx hid => h ⟨x, hx, hid⟩
    rw [Complete_not_found now h2]
    exact ⟨rfl, rfl⟩

theorem Edit_ids (t : TodoList) (id : Int) (newTitle : String) :
    (Edit t id newTitle).1.NextID = t.NextID ∧
    (Edit t id newTitle).1.Items.map (fun x => x.ID) = t.Items.map (fun x => x.ID) := by
  by_cases h : ∃ x ∈ t.Items, x.ID = id
  · obtain ⟨pre, todo, post, hf⟩ := exists_first_with_id id t.Items h
    rw [Edit_at_first newTitle hf]
    refine ⟨rfl, ?_⟩
    rw [hf.1]
    simp
  · have h2 : ∀ x ∈ t.Items, x.ID ≠ id := fun x hx hid => h ⟨x, hx, hid⟩
    rw [Edit_not_found newTitle h2]
    exact ⟨rfl, rfl⟩

theorem Delete_sublist (t : TodoList) (id : Int) :
    (Delete t id).1.NextID = t.NextID ∧ List.Sublist (Delete t id).1.Items t.Items := by
  by_cases h : ∃ x ∈ t.Items, x.ID = id
  · obtain ⟨pre, todo, post, hf⟩ := exists_first_with_id id t.Items h
    rw [Delete_at_first hf]
    refine ⟨rfl, ?_⟩
    rw [hf.1]
    exact List.Sublist.append_left (List.sublist_cons_self todo post) pre
  · have h2 : ∀ x ∈ t.Items, x.ID ≠ id := fun x hx hid => h ⟨x, hx, hid⟩
    rw [Delete_not_found h2]
    exact ⟨rfl, List.Sublist.refl _⟩

theorem counterAbove_of_ids {t u : TodoList} (hn : u.NextID = t.NextID)
    (hids : u.Items.map (fun x => x.ID) = t.Items.map (fun x => x.ID))
    (h : CounterAbove t) : CounterAbove u := by
  intro x hx
  have hmem : x.ID ∈ u.Items.map (fun x => x.ID) := List.mem_map_of_mem _ hx
  rw [hids] at hmem
  obtain ⟨y, hy, hyid⟩ := List.mem_map.mp hmem
  rw [hn, ← hyid]
  exact h y hy

/-! ## Properties of the specification -/

/-- C1 (amended): `add` appends exactly one task to the old sequence, with id
equal to the old counter, the given title, `Completed = false` and no completion
timestamp, and prints its confirmation; the new counter is the 64-bit increment of
the old one, which is the old counter plus one whenever the old counter is an
`int` below the largest one. -/
theorem add_appends_new_task (t : TodoList) (title : String) (now : Timestamp) :
    (add t title now).1.Items
      = t.Items ++ [{ ID := t.NextID, Title := title, Completed := false,
                      CreatedAt := now, CompletedAt := none }] ∧
    (add t title now).1.NextID = wrapInt (t.NextID + 1) ∧
    (minInt ≤ t.NextID → t.NextID < maxInt → (add t title now).1.NextID = t.NextID + 1) ∧
    (add t title now).2 = "✅ Todo added: " ++ title ++ "\n" := by
  refine ⟨rfl, rfl, ?_, rfl⟩
  intro hlo hhi
  show wrapInt (t.NextID + 1) = t.NextID + 1
  exact wrapInt_of_range _ (by omega) (by omega)

/-- C1, witness: the first `add` on the empty store with counter 1. -/
theorem add_appends_new_task_witness :
    (add { NextID := 1, Items := [] } "Buy milk" 7).1.NextID = 1 + 1 :=
  (add_appends_new_task { NextID := 1, Items := [] } "Buy milk" 7).2.2.1
    (by decide) (by decide)

/-- C1, counterexample: on a store whose counter is the largest `int`, the counter
after `add` is the smallest `int`, not the old counter plus one. -/
theorem add_counter_wraps :
    (add { NextID := 9223372036854775807, Items := [] } "x" 0).1.NextID
        = -9223372036854775808 ∧
    (add { NextID := 9223372036854775807, Items := [] } "x" 0).1.NextID
        ≠ 9223372036854775807 + 1 := by
  decide

/-- C2: after `n` calls of `add` on the empty store with counter 1 (the store that
`Load` builds for an absent file), with `n` below the largest `int`, the store holds
`n` tasks, the k-th task has id k, the ids are strictly increasing and pairwise
distinct, the tasks carry the given titles in call order, and the counter is
`n + 1`. -/
theorem addAll_ids_from_one (calls : List (String × Timestamp))
    (hn : (calls.length : Int) < maxInt) :
    (addAll { NextID := 1, Items := [] } calls).Items.map (fun todo => todo.ID)
      = (List.range calls.length).map (fun (k : Nat) => (k : Int) + 1) ∧
    (addAll { NextID := 1, Items := [] } calls).Items.length = calls.length ∧
    (∀ k, k < calls.length →
      ((addAll { NextID := 1, Items := [] } calls).Items[k]?).map (fun todo => todo.ID)
        = some ((k : Int) + 1)) ∧
    ((addAll { NextID := 1, Items := [] } calls).Items.map (fun todo => todo.ID)).Pairwise
      (fun a b => a < b) ∧
    ((addAll { NextID := 1, Items := [] } calls).Items.map (fun todo => todo.ID)).Nodup ∧
    (addAll { NextID := 1, Items := [] } calls).Items.map (fun todo => todo.Title)
      = calls.map (fun c => c.1) ∧
    (addAll { NextID := 1, Items := [] } calls).NextID = (calls.length : Int) + 1 := by
  obtain ⟨h1, h2, h3⟩ := addAll_ids calls { NextID := 1, Items := [] }
    (by decide) (by show (1 : Int) + calls.length ≤ maxInt; omega)
  have hids : (addAll { NextID := 1, Items := [] } calls).Items.map (fun todo => todo.ID)
      = (List.range calls.length).map (fun (k : Nat) => (k : Int) + 1) := by
    rw [h2]
    simp only [List.map_nil, List.nil_append]
    apply List.map_congr_left
    intro k _
    ring
  have hlen : (addAll { NextID := 1, Items := [] } calls).Items.length = calls.length := by
    have := congrArg List.length hids
    simpa using this
  have hpair : ((addAll { NextID := 1, Items := [] } calls).Items.map
      (fun todo => todo.ID)).Pairwise (fun a b => a < b) := by
    rw [hids, List.pairwise_map]
    exact (List.pairwise_lt_range calls.length).imp (fun h => by omega)
  refine ⟨hids, hlen, ?_, hpair, ?_, ?_, ?_⟩
  · intro k hk
    have := congrArg (fun l => l[k]?) hids
    simp only [List.getElem?_map, List.getElem?_range hk, Option.map_some'] at this
    exact this
  · exact hpair.imp (fun h => ne_of_lt h)
  · have := congrArg (List.map (fun p : String × Timestamp => p.1)) h3
    simpa [List.map_map, Function.comp] using this
  · rw [h1]; ring

/-- C2, witness: three calls of `add`. -/
theorem addAll_ids_from_one_witness :
    (addAll { NextID := 1, Items := [] } [("a", 10), ("b", 20), ("c", 30)]).Items.map
        (fun todo => todo.ID) = [1, 2, 3] ∧
    (addAll { NextID := 1, Items := [] } [("a", 10), ("b", 20), ("c", 30)]).NextID = 4 := by
  have h := addAll_ids_from_one [("a", 10), ("b", 20), ("c", 30)] (by decide)
  exact ⟨h.1, h.2.2.2.2.2.2⟩

/-- C3: `Delete` never reorders or alters the tasks it keeps: for every store and
id the new sequence is a subsequence of the old one and the counter is unchanged.
When some task has the id, the first task with that id is removed and nothing else:
the store splits as `pre ++ todo :: post` at that task and becomes `pre ++ post`,
so every other task is kept field for field in the same order, the length drops by
exactly one, and the confirmation is printed. -/
theorem Delete_removes_first_match (t : TodoList) (id : Int) :
    List.Sublist (Delete t id).1.Items t.Items ∧
    (Delete t id).1.NextID = t.NextID ∧
    ((∃ x ∈ t.Items, x.ID = id) →
      ∃ pre todo post, FirstWithID t.Items id pre todo post ∧
        Delete t id = ({ NextID := t.NextID, Items := pre ++ post }, " 🗑️ Todo deleted.\n") ∧
        (Delete t id).1.Items.length + 1 = t.Items.length) := by
  refine ⟨(Delete_sublist t id).2, (Delete_sublist t id).1, ?_⟩
  intro h
  obtain ⟨pre, todo, post, hf⟩ := exists_first_with_id id t.Items h
  refine ⟨pre, todo, post, hf, Delete_at_first hf, ?_⟩
  rw [Delete_at_first hf, hf.1]
  simp only [List.length_append, List.length_cons]
  omega

/-- C3, witness: deleting id 2 from a store that holds it twice removes the first. -/
theorem Delete_removes_first_match_witness :
    ∃ pre todo post,
      FirstWithID [⟨1, "a", false, 0, none⟩, ⟨2, "b", false, 0, none⟩, ⟨2, "c", true, 0, some 5⟩]
        2 pre todo post ∧
      Delete ⟨4, [⟨1, "a", false, 0, none⟩, ⟨2, "b", false, 0, none⟩, ⟨2, "c", true, 0, some 5⟩]⟩ 2
        = ({ NextID := 4, Items := pre ++ post }, " 🗑️ Todo deleted.\n") := by
  obtain ⟨pre, todo, post, h1, h2, _⟩ := (Delete_removes_first_match
    ⟨4, [⟨1, "a", false, 0, none⟩, ⟨2, "b", false, 0, none⟩, ⟨2, "c", true, 0, some 5⟩]⟩ 2).2.2
    ⟨⟨2, "b", false, 0, none⟩, by simp, rfl⟩
  exact ⟨pre, todo, post, h1, h2⟩

/-- C4: `Complete` has exactly one of three outcomes.  (1) The first task with the
id is not completed: it gets `Completed = true` and the completion timestamp `now`,
its id, title and creation timestamp, every other task and the counter stay, and the
confirmation with its title is printed.  (2) The first task with the id is completed:
the store is unchanged and the notice "already completed" is printed.  (3) No task
has the id: the notice "not found" is printed (and the store is unchanged).  The
three cases exclude one another. -/
theorem Complete_three_outcomes (t : TodoList) (id : Int) (now : Timestamp) :
    ((∃ pre todo post, FirstWithID t.Items id pre todo post ∧ todo.Completed = false ∧
        Complete t id now =
          ({ NextID := t.NextID,
             Items := pre ++ { ID := todo.ID, Title := todo.Title, Completed := true,
                               CreatedAt := todo.CreatedAt, CompletedAt := some now } :: post },
           " 🎯Todo marked as completed: " ++ todo.Title ++ "\n")) ∨
     (∃ pre todo post, FirstWithID t.Items id pre todo post ∧ todo.Completed = true ∧
        Complete t id now = (t, "Todo already completed.\n")) ∨
     ((∀ x ∈ t.Items, x.ID ≠ id) ∧ Complete t id now = (t, "⚠️Todo not found. \n"))) ∧
    ¬ ((∃ pre todo post, FirstWithID t.Items id pre todo post ∧ todo.Completed = false) ∧
       (∃ pre todo post, FirstWithID t.Items id pre todo post ∧ todo.Completed = true)) ∧
    ¬ ((∃ pre todo post, FirstWithID t.Items id pre todo post) ∧
       (∀ x ∈ t.Items, x.ID ≠ id)) := by
  refine ⟨?_, ?_, ?_⟩
  · by_cases h : ∃ x ∈ t.Items, x.ID = id
    · obtain ⟨pre, todo, post, hf⟩ := exists_first_with_id id t.Items h
      cases hc : todo.Completed with
      | false =>
        left
        refine ⟨pre, todo, post, hf, hc, ?_⟩
        rw [Complete_at_first now hf, hc]
        rfl
      | true =>
        right; left
        refine ⟨pre, todo, post, hf, hc, ?_⟩
        rw [Complete_at_first now hf, hc]
        rfl
    · right; right
      have h2 : ∀ x ∈ t.Items, x.ID ≠ id := fun x hx hid => h ⟨x, hx, hid⟩
      exact ⟨h2, Complete_not_found now h2⟩
  · rintro ⟨⟨pre, todo, post, hf, hc⟩, ⟨pre2, todo2, post2, hf2, hc2⟩⟩
    obtain ⟨_, htodo, _⟩ := first_unique hf hf2
    rw [htodo, hc2] at hc
    exact absurd hc (by decide)
  · rintro ⟨⟨pre, todo, post, hf⟩, hno⟩
    exact hno todo (mem_of_first hf).1 (mem_of_first hf).2

/-- C5: a second `Complete` of the same id changes nothing, whatever the two clock
readings: the store after two calls is the store after the first.  When a task has
the id, the first task with it is completed after the first call and the second call
prints the notice "already completed"; when that task was not completed before, its
completion timestamp after both calls is the first clock reading. -/
theorem Complete_twice (t : TodoList) (id : Int) (now1 now2 : Timestamp) :
    (Complete (Complete t id now1).1 id now2).1 = (Complete t id now1).1 ∧
    ((∃ x ∈ t.Items, x.ID = id) →
      (∃ pre todo post, FirstWithID (Complete t id now1).1.Items id pre todo post ∧
        todo.Completed = true) ∧
      Complete (Complete t id now1).1 id now2
        = ((Complete t id now1).1, "Todo already completed.\n")) ∧
    (∀ pre todo post, FirstWithID t.Items id pre todo post → todo.Completed = false →
      (Complete (Complete t id now1).1 id now2).1.Items
        = pre ++ { ID := todo.ID, Title := todo.Title, Completed := true,
                   CreatedAt := todo.CreatedAt, CompletedAt := some now1 } :: post) := by
  have key : ∀ pre todo post, FirstWithID t.Items id pre todo post →
      ∃ todo2, FirstWithID (Complete t id now1).1.Items id pre todo2 post ∧
        todo2.Completed = true ∧
        (todo.Completed = false →
          todo2 = { ID := todo.ID, Title := todo.Title, Completed := true,
                    CreatedAt := todo.CreatedAt, CompletedAt := some now1 }) := by
    intro pre todo post hf
    rw [Complete_at_first now1 hf]
    cases hc : todo.Completed with
    | true => exact ⟨todo, hf, hc, by intro h; cases h⟩
    | false =>
      exact ⟨_, ⟨rfl, hf.2.1, hf.2.2⟩, rfl, fun _ => rfl⟩
  have second : ∀ pre todo post, FirstWithID t.Items id pre todo post →
      Complete (Complete t id now1).1 id now2
        = ((Complete t id now1).1, "Todo already completed.\n") := by
    intro pre todo post hf
    obtain ⟨todo2, hf2, hc2, _⟩ := key pre todo post hf
    rw [Complete_at_first now2 hf2, hc2]
    rfl
  refine ⟨?_, ?_, ?_⟩
  · by_cases h : ∃ x ∈ t.Items, x.ID = id
    · obtain ⟨pre, todo, post, hf⟩ := exists_first_with_id id t.Items h
      rw [second pre todo post hf]
    · have h2 : ∀ x ∈ t.Items, x.ID ≠ id := fun x hx hid => h ⟨x, hx, hid⟩
      rw [Complete_not_found now1 h2, Complete_not_found now2 h2]
  · intro h
    obtain ⟨pre, todo, post, hf⟩ := exists_first_with_id id t.Items h
    obtain ⟨todo2, hf2, hc2, _⟩ := key pre todo post hf
    exact ⟨⟨pre, todo2, post, hf2, hc2⟩, second pre todo post hf⟩
  · intro pre todo post hf hc
    obtain ⟨todo2, hf2, _, heq⟩ := key pre todo post hf
    rw [second pre todo post hf, hf2.1, heq hc]

/-- C5, witness: completing task 1 at time 9 and again at time 11 keeps time 9. -/
theorem Complete_twice_witness :
    (Complete (Complete ⟨2, [⟨1, "Buy milk", false, 5, none⟩]⟩ 1 9).1 1 11)
      = (⟨2, [⟨1, "Buy milk", true, 5, some 9⟩]⟩, "Todo already completed.\n") := by
  have h := (Complete_twice ⟨2, [⟨1, "Buy milk", false, 5, none⟩]⟩ 1 9 11).2.1
    ⟨⟨1, "Buy milk", false, 5, none⟩, by simp, rfl⟩
  exact h.2

/-- C6: when some task has the id, `Edit` replaces the title of the first task with
that id by the new title and leaves the id of that task, its completed flag and both
timestamps, every other task, the order and length of the sequence and the counter
as they were; it prints its confirmation. -/
theorem Edit_replaces_title_only (t : TodoList) (id : Int) (newTitle : String)
    (h : ∃ x ∈ t.Items, x.ID = id) :
    ∃ pre todo post, FirstWithID t.Items id pre todo post ∧
      Edit t id newTitle =
        ({ NextID := t.NextID,
           Items := pre ++ { ID := todo.ID, Title := newTitle, Completed := todo.Completed,
                             CreatedAt := todo.CreatedAt,
                             CompletedAt := todo.CompletedAt } :: post },
         "✏️Todo updated.\n") ∧
      (Edit t id newTitle).1.Items.length = t.Items.length ∧
      (Edit t id newTitle).1.Items.map (fun x => x.ID) = t.Items.map (fun x => x.ID) := by
  obtain ⟨pre, todo, post, hf⟩ := exists_first_with_id id t.Items h
  refine ⟨pre, todo, post, hf, Edit_at_first newTitle hf, ?_, ?_⟩
  · rw [Edit_at_first newTitle hf, hf.1]
    simp
  · rw [Edit_at_first newTitle hf, hf.1]
    simp

/-- C6, witness: editing id 2 in a store that holds it twice renames the first. -/
theorem Edit_replaces_title_only_witness :
    ∃ pre todo post,
      FirstWithID [⟨1, "a", false, 0, none⟩, ⟨2, "b", true, 3, some 5⟩, ⟨2, "c", false, 4, none⟩]
        2 pre todo post ∧
      (Edit ⟨7, [⟨1, "a", false, 0, none⟩, ⟨2, "b", true, 3, some 5⟩, ⟨2, "c", false, 4, none⟩]⟩
        2 "new").1.Items.length = 3 := by
  obtain ⟨pre, todo, post, h1, _, h3, _⟩ := Edit_replaces_title_only
    ⟨7, [⟨1, "a", false, 0, none⟩, ⟨2, "b", true, 3, some 5⟩, ⟨2, "c", false, 4, none⟩]⟩ 2 "new"
    ⟨⟨2, "b", true, 3, some 5⟩, by simp, rfl⟩
  exact ⟨pre, todo, post, h1, h3⟩

/-- C7: when no task of the store has the id, each of `Complete`, `Edit` and
`Delete` returns the store as it was (same counter, same tasks) and prints its
"not found" notice. -/
theorem not_found_leaves_store (t : TodoList) (id : Int) (now : Timestamp)
    (newTitle : String) (h : ∀ x ∈ t.Items, x.ID ≠ id) :
    Complete t id now = (t, "⚠️Todo not found. \n") ∧
    Edit t id newTitle = (t, "⚠️Todo not found.\n") ∧
    Delete t id = (t, "Todo not found.\n") :=
  ⟨Complete_not_found now h, Edit_not_found newTitle h, Delete_not_found h⟩

/-- C7, witness: id 99 on a store that holds only id 1. -/
theorem not_found_leaves_store_witness :
    Complete ⟨2, [⟨1, "Buy milk", false, 5, none⟩]⟩ 99 8
      = (⟨2, [⟨1, "Buy milk", false, 5, none⟩]⟩, "⚠️Todo not found. \n") ∧
    Edit ⟨2, [⟨1, "Buy milk", false, 5, none⟩]⟩ 99 "x"
      = (⟨2, [⟨1, "Buy milk", false, 5, none⟩]⟩, "⚠️Todo not found.\n") ∧
    Delete ⟨2, [⟨1, "Buy milk", false, 5, none⟩]⟩ 99
      = (⟨2, [⟨1, "Buy milk", false, 5, none⟩]⟩, "Todo not found.\n") :=
  not_found_leaves_store ⟨2, [⟨1, "Buy milk", false, 5, none⟩]⟩ 99 8 "x" (by decide)

/-- C4, witness: the three outcomes on a store with a pending task 1 and a completed
task 2. -/
theorem Complete_three_outcomes_witness :
    (Complete ⟨3, [⟨1, "a", false, 0, none⟩, ⟨2, "b", true, 1, some 2⟩]⟩ 1 9).2
      = " 🎯Todo marked as completed: a\n" ∧
    ¬ ((∃ pre todo post,
          FirstWithID [⟨1, "a", false, 0, none⟩, ⟨2, "b", true, 1, some 2⟩] 1 pre todo post) ∧
       (∀ x ∈ [(⟨1, "a", false, 0, none⟩ : Todo), ⟨2, "b", true, 1, some 2⟩], x.ID ≠ 1)) :=
  ⟨rfl, (Complete_three_outcomes
    ⟨3, [⟨1, "a", false, 0, none⟩, ⟨2, "b", true, 1, some 2⟩]⟩ 1 9).2.2⟩

/-- C8 (amended): for a store whose counter is at least 1 and greater than every
task id (titles are Unicode text, as everywhere in this model), whenever `Save`
returns, which it does when `os.Create` and `Encode` return no error, `Load` of the
file it wrote into the zero value of `TodoList`, the receiver that `main` uses,
gives back the same store: same counter, same tasks in the same order with the same
field values.  Stores with zero tasks and stores with a task without completion
timestamp are among them. -/
theorem Save_Load_roundtrip (t : TodoList) (hpos : 0 < t.NextID)
    (habove : CounterAbove t) :
    Save t none none = .ok (.holds (encodeList t)) "" ∧
    (∀ createErr encodeErr file out, Save t createErr encodeErr = .ok file out →
      Load { NextID := 0, Items := [] } file = .ok t "") := by
  refine ⟨rfl, ?_⟩
  intro createErr encodeErr file out hsave
  have hfile : file = .holds (encodeList t) := by
    cases createErr with
    | some err => simp [Save, errorChecker] at hsave
    | none =>
      cases encodeErr with
      | some err => simp [Save, errorChecker] at hsave
      | none =>
        simp only [Save, Outcome.ok.injEq] at hsave
        exact hsave.1.symm
  rw [hfile]
  simp only [Load, decodeInto_encodeList, normalize_of_above t hpos habove]

/-- C8, witness: a store with a task that has no completion timestamp. -/
theorem Save_Load_roundtrip_witness :
    Load { NextID := 0, Items := [] }
        (.holds (encodeList ⟨3, [⟨1, "a", false, 4, none⟩, ⟨2, "b", true, 5, some 6⟩]⟩))
      = .ok ⟨3, [⟨1, "a", false, 4, none⟩, ⟨2, "b", true, 5, some 6⟩]⟩ "" :=
  (Save_Load_roundtrip ⟨3, [⟨1, "a", false, 4, none⟩, ⟨2, "b", true, 5, some 6⟩]⟩
    (by decide) (by decide)).2 none none
    (.holds (encodeList ⟨3, [⟨1, "a", false, 4, none⟩, ⟨2, "b", true, 5, some 6⟩]⟩)) "" rfl

/-- C8, counterexample: a store whose counter 1 is not above its task id 5 is saved
as it is, and `Load` of that file gives the counter 6.  And the file of a store with
one task without completion timestamp, loaded into a receiver that already holds a
completed task, gives a task with the completion timestamp of the receiver. -/
theorem Save_Load_changes_counter :
    (Save ⟨1, [⟨5, "a", false, 4, none⟩]⟩ none none
       = .ok (.holds (encodeList ⟨1, [⟨5, "a", false, 4, none⟩]⟩)) "" ∧
     Load ⟨0, []⟩ (.holds (encodeList ⟨1, [⟨5, "a", false, 4, none⟩]⟩))
       = .ok ⟨6, [⟨5, "a", false, 4, none⟩]⟩ "" ∧
     (⟨6, [⟨5, "a", false, 4, none⟩]⟩ : TodoList) ≠ ⟨1, [⟨5, "a", false, 4, none⟩]⟩) ∧
    (Save ⟨3, [⟨1, "a", false, 4, none⟩]⟩ none none
       = .ok (.holds (encodeList ⟨3, [⟨1, "a", false, 4, none⟩]⟩)) "" ∧
     Load ⟨9, [⟨7, "old", true, 8, some 9⟩]⟩
         (.holds (encodeList ⟨3, [⟨1, "a", false, 4, none⟩]⟩))
       = .ok ⟨3, [⟨1, "a", false, 4, some 9⟩]⟩ "" ∧
     (⟨3, [⟨1, "a", false, 4, some 9⟩]⟩ : TodoList) ≠ ⟨3, [⟨1, "a", false, 4, none⟩]⟩) := by
  decide

/-- C9 (amended): when the decoded file has a task, its largest task id `m` is at
least 0 and below the largest `int`, and the decoded counter is at most `m`, then
`Load` returns the decoded tasks with the counter `m + 1`. -/
theorem Load_raises_counter (t0 : TodoList) (doc : TodoListJSON) (m : Int)
    (hmem : ∃ x ∈ (decodeInto t0 doc).Items, x.ID = m)
    (hmax : ∀ x ∈ (decodeInto t0 doc).Items, x.ID ≤ m)
    (hle : (decodeInto t0 doc).NextID ≤ m) (h0 : 0 ≤ m) (hlt : m < maxInt) :
    Load t0 (.holds doc)
      = .ok { NextID := m + 1, Items := (decodeInto t0 doc).Items } "" := by
  have hm := maxIDLoop_eq_of_max (decodeInto t0 doc).Items m hmem hmax h0
  simp only [Load]
  rw [normalize_of_le (decodeInto t0 doc) (by rw [hm]; exact hle) (by rw [hm]; exact hlt), hm]

/-- C9, witness: a file with counter 2 and the task ids 3 and 7. -/
theorem Load_raises_counter_witness :
    Load ⟨0, []⟩ (.holds ⟨some 2, some [⟨some 3, some "a", some false, some 0, none⟩,
                                        ⟨some 7, some "b", some false, some 0, none⟩]⟩)
      = .ok { NextID := 7 + 1,
              Items := (decodeInto ⟨0, []⟩
                ⟨some 2, some [⟨some 3, some "a", some false, some 0, none⟩,
                               ⟨some 7, some "b", some false, some 0, none⟩]⟩).Items } "" :=
  Load_raises_counter ⟨0, []⟩
    ⟨some 2, some [⟨some 3, some "a", some false, some 0, none⟩,
                   ⟨some 7, some "b", some false, some 0, none⟩]⟩ 7
    (by decide) (by decide) (by decide) (by decide) (by decide)

/-- C9, counterexample: a file with counter -7 and the single task id -5 has a
counter below its largest id, and `Load` gives the counter 1, not -5 + 1.  A file
whose single task id is the largest `int` gets the smallest `int` as counter. -/
theorem Load_counter_not_max_plus_one :
    ((∃ x ∈ (decodeInto ⟨0, []⟩
        ⟨some (-7), some [⟨some (-5), some "a", some false, some 0, none⟩]⟩).Items, x.ID = -5) ∧
     (∀ x ∈ (decodeInto ⟨0, []⟩
        ⟨some (-7), some [⟨some (-5), some "a", some false, some 0, none⟩]⟩).Items, x.ID ≤ -5) ∧
     (decodeInto ⟨0, []⟩
        ⟨some (-7), some [⟨some (-5), some "a", some false, some 0, none⟩]⟩).NextID ≤ -5 ∧
     Load ⟨0, []⟩ (.holds ⟨some (-7), some [⟨some (-5), some "a", some false, some 0, none⟩]⟩)
       = .ok ⟨1, [⟨-5, "a", false, 0, none⟩]⟩ "" ∧
     (1 : Int) ≠ -5 + 1) ∧
    (Load ⟨0, []⟩ (.holds ⟨some 3,
        some [⟨some 9223372036854775807, some "a", some false, some 0, none⟩]⟩)
       = .ok ⟨-9223372036854775808, [⟨9223372036854775807, "a", false, 0, none⟩]⟩ "" ∧
     (-9223372036854775808 : Int) ≠ 9223372036854775807 + 1) := by
  decide

/-- C10 (amended): the counter is strictly greater than every id of the store that
`Load` builds for an absent file and of the store it builds from a decoded file
whose ids are all below the largest `int`; `add` keeps this when the counter is an
`int` below the largest one, and `Complete`, `Edit` and `Delete` keep it for every
store. -/
theorem counter_above_ids :
    (∀ t0, ∃ s, Load t0 .notExist = .ok s "" ∧ CounterAbove s) ∧
    (∀ t0 doc, (∀ x ∈ (decodeInto t0 doc).Items, x.ID < maxInt) →
      ∃ s, Load t0 (.holds doc) = .ok s "" ∧ CounterAbove s) ∧
    (∀ t title now, CounterAbove t → minInt ≤ t.NextID → t.NextID < maxInt →
      CounterAbove (add t title now).1) ∧
    (∀ t id now, CounterAbove t → CounterAbove (Complete t id now).1) ∧
    (∀ t id newTitle, CounterAbove t → CounterAbove (Edit t id newTitle).1) ∧
    (∀ t id, CounterAbove t → CounterAbove (Delete t id).1) := by
  refine ⟨?_, ?_, ?_, ?_, ?_, ?_⟩
  · intro t0
    refine ⟨_, rfl, ?_⟩
    intro x hx
    simp at hx
  · intro t0 doc hids
    refine ⟨_, rfl, ?_⟩
    intro x hx
    rw [normalize_items] at hx
    have hxm := maxIDLoop_ge_mem 0 (decodeInto t0 doc).Items x hx
    have h0 := maxIDLoop_ge_init 0 (decodeInto t0 doc).Items
    have hlt : maxIDLoop 0 (decodeInto t0 doc).Items < maxInt := by
      rcases maxIDLoop_init_or_mem 0 (decodeInto t0 doc).Items with h | ⟨y, hy, hyid⟩
      · rw [h]; decide
      · rw [← hyid]; exact hids y hy
    by_cases hle : (decodeInto t0 doc).NextID ≤ maxIDLoop 0 (decodeInto t0 doc).Items
    · rw [normalize_of_le _ hle hlt]
      show x.ID < maxIDLoop 0 (decodeInto t0 doc).Items + 1
      omega
    · have hne : ¬ (decodeInto t0 doc).NextID = 0 := by omega
      have hn : (normalize (decodeInto t0 doc)).NextID = (decodeInto t0 doc).NextID := by
        simp [normalize, hle, hne]
      rw [hn]
      omega
  · intro t title now h hlo hhi
    have hw : wrapInt (t.NextID + 1) = t.NextID + 1 :=
      wrapInt_of_range _ (by omega) (by omega)
    intro x hx
    have hx2 : x ∈ t.Items ++ [(⟨t.NextID, title, false, now, none⟩ : Todo)] := hx
    show x.ID < wrapInt (t.NextID + 1)
    rw [hw]
    rcases List.mem_append.mp hx2 with hx3 | hx3
    · have := h x hx3
      omega
    · rw [List.mem_singleton.mp hx3]
      show t.NextID < t.NextID + 1
      omega
  · intro t id now h
    exact counterAbove_of_ids (Complete_ids t id now).1 (Complete_ids t id now).2 h
  · intro t id newTitle h
    exact counterAbove_of_ids (Edit_ids t id newTitle).1 (Edit_ids t id newTitle).2 h
  · intro t id h x hx
    rw [(Delete_sublist t id).1]
    exact h x ((Delete_sublist t id).2.subset hx)

/-- C10, witness: the invariant after `Load` of a file with counter 0 and id 4, and
after `add` on the loaded store. -/
theorem counter_above_ids_witness :
    (∃ s, Load ⟨0, []⟩ (.holds ⟨none, some [⟨some 4, some "a", none, none, none⟩]⟩)
        = .ok s "" ∧ CounterAbove s) ∧
    CounterAbove (add ⟨5, [⟨4, "a", false, 0, none⟩]⟩ "b" 1).1 :=
  ⟨counter_above_ids.2.1 ⟨0, []⟩ ⟨none, some [⟨some 4, some "a", none, none, none⟩]⟩
      (by decide),
   counter_above_ids.2.2.1 ⟨5, [⟨4, "a", false, 0, none⟩]⟩ "b" 1
      (by decide) (by decide) (by decide)⟩

/-- C10, counterexample: the store with no task and the largest `int` as counter has
its counter above every id, and after `add` the counter is the smallest `int`, below
the id of the new task.  The store that `Load` builds from a file whose single task
id is the largest `int` has its counter below that id as well. -/
theorem counter_not_above_after_overflow :
    (CounterAbove ⟨9223372036854775807, []⟩ ∧
     ¬ CounterAbove (add ⟨9223372036854775807, []⟩ "x" 0).1) ∧
    (Load ⟨0, []⟩ (.holds ⟨some 3,
        some [⟨some 9223372036854775807, some "a", some false, some 0, none⟩]⟩)
       = .ok ⟨-9223372036854775808, [⟨9223372036854775807, "a", false, 0, none⟩]⟩ "" ∧
     ¬ CounterAbove ⟨-9223372036854775808, [⟨9223372036854775807, "a", false, 0, none⟩]⟩) := by
  decide

/-! ## Auxiliary facts on sequences of calls -/

theorem add_ids (t : TodoList) (title : String) (now : Timestamp) :
    (add t title now).1.NextID = wrapInt (t.NextID + 1) ∧
    (add t title now).1.Items.map (fun x => x.ID)
      = t.Items.map (fun x => x.ID) ++ [t.NextID] := by
  simp [add]

theorem Delete_ids_sublist (t : TodoList) (id : Int) :
    List.Sublist ((Delete t id).1.Items.map (fun x => x.ID)) (t.Items.map (fun x => x.ID)) :=
  (Delete_sublist t id).2.map _

theorem stamps_after_applyOp (t : TodoList) (op : Op)
    (h : ∀ x ∈ t.Items, StampIffCompleted x) :
    ∀ x ∈ (applyOp t op).Items, StampIffCompleted x := by
  cases op with
  | add title now =>
    intro x hx
    have hx2 : x ∈ t.Items ++ [(⟨t.NextID, title, false, now, none⟩ : Todo)] := hx
    rcases List.mem_append.mp hx2 with hx3 | hx3
    · exact h x hx3
    · rw [List.mem_singleton.mp hx3]
      rfl
  | complete id now =>
    show ∀ x ∈ (Complete t id now).1.Items, StampIffCompleted x
    by_cases hex : ∃ x ∈ t.Items, x.ID = id
    · obtain ⟨pre, todo, post, hf⟩ := exists_first_with_id id t.Items hex
      rw [Complete_at_first now hf]
      split
      · exact h
      · intro x hx
        have hx2 : x ∈ pre ++ (⟨todo.ID, todo.Title, true, todo.CreatedAt, some now⟩ : Todo)
            :: post := hx
        have hsub : ∀ y, y ∈ pre ∨ y ∈ post → y ∈ t.Items := by
          intro y hy
          rw [hf.1]
          rcases hy with hy | hy
          · exact List.mem_append_left _ hy
          · exact List.mem_append_right _ (List.mem_cons_of_mem _ hy)
        rcases List.mem_append.mp hx2 with hx3 | hx3
        · exact h x (hsub x (Or.inl hx3))
        · rcases List.mem_cons.mp hx3 with hx4 | hx4
          · rw [hx4]
            rfl
          · exact h x (hsub x (Or.inr hx4))
    · have h2 : ∀ x ∈ t.Items, x.ID ≠ id := fun x hx hid => hex ⟨x, hx, hid⟩
      rw [Complete_not_found now h2]
      exact h
  | edit id newTitle =>
    show ∀ x ∈ (Edit t id newTitle).1.Items, StampIffCompleted x
    by_cases hex : ∃ x ∈ t.Items, x.ID = id
    · obtain ⟨pre, todo, post, hf⟩ := exists_first_with_id id t.Items hex
      rw [Edit_at_first newTitle hf]
      intro x hx
      have hx2 : x ∈ pre ++ (⟨todo.ID, newTitle, todo.Completed, todo.CreatedAt,
          todo.CompletedAt⟩ : Todo) :: post := hx
      have htodo : StampIffCompleted todo := h todo (mem_of_first hf).1
      have hsub : ∀ y, y ∈ pre ∨ y ∈ post → y ∈ t.Items := by
        intro y hy
        rw [hf.1]
        rcases hy with hy | hy
        · exact List.mem_append_left _ hy
        · exact List.mem_append_right _ (List.mem_cons_of_mem _ hy)
      rcases List.mem_append.mp hx2 with hx3 | hx3
      · exact h x (hsub x (Or.inl hx3))
      · rcases List.mem_cons.mp hx3 with hx4 | hx4
        · rw [hx4]
          exact htodo
        · exact h x (hsub x (Or.inr hx4))
    · have h2 : ∀ x ∈ t.Items, x.ID ≠ id := fun x hx hid => hex ⟨x, hx, hid⟩
      rw [Edit_not_found newTitle h2]
      exact h
  | delete id =>
    intro x hx
    exact h x ((Delete_sublist t id).2.subset hx)

theorem stamps_after_runOps (ops : List Op) (t : TodoList)
    (h : ∀ x ∈ t.Items, StampIffCompleted x) :
    ∀ x ∈ (runOps t ops).Items, StampIffCompleted x := by
  induction ops generalizing t with
  | nil => exact h
  | cons op rest ih => exact ih (applyOp t op) (stamps_after_applyOp t op h)

/-! ## Properties of the specification, continued -/

/-- C12 (amended): `Complete`, `Edit` and `Delete` leave the counter unchanged for
every store and every argument, and `add` raises it by exactly one when it is an
`int` below the largest one; so the counter never decreases below that bound, also
across deletions.  From the empty store with counter 1, `add "Buy milk"`, then
`Complete(1)`, then `Delete(1)` give an empty store whose counter is 2. -/
theorem counter_never_decreases :
    (∀ t title now, minInt ≤ t.NextID → t.NextID < maxInt →
      (add t title now).1.NextID = t.NextID + 1) ∧
    (∀ t id now, (Complete t id now).1.NextID = t.NextID) ∧
    (∀ t id newTitle, (Edit t id newTitle).1.NextID = t.NextID) ∧
    (∀ t id, (Delete t id).1.NextID = t.NextID) ∧
    (∀ t op, minInt ≤ t.NextID → t.NextID < maxInt → t.NextID ≤ (applyOp t op).NextID) ∧
    (∀ now1 now2,
      (Delete (Complete (add { NextID := 1, Items := [] } "Buy milk" now1).1 1 now2).1 1).1
        = { NextID := 2, Items := [] }) := by
  have hadd : ∀ (t : TodoList) (title : String) (now : Timestamp), minInt ≤ t.NextID →
      t.NextID < maxInt → (add t title now).1.NextID = t.NextID + 1 := by
    intro t title now hlo hhi
    rw [(add_ids t title now).1]
    exact wrapInt_of_range _ (by omega) (by omega)
  refine ⟨hadd, fun t id now => (Complete_ids t id now).1,
    fun t id newTitle => (Edit_ids t id newTitle).1, fun t id => (Delete_sublist t id).1, ?_, ?_⟩
  · intro t op hlo hhi
    cases op with
    | add title now =>
      show t.NextID ≤ (add t title now).1.NextID
      rw [hadd t title now hlo hhi]
      omega
    | complete id now => exact le_of_eq (Complete_ids t id now).1.symm
    | edit id newTitle => exact le_of_eq (Edit_ids t id newTitle).1.symm
    | delete id => exact le_of_eq (Delete_sublist t id).1.symm
  · intro now1 now2
    rfl

/-- C12, witness: `add` on a store with counter 5 gives the counter 6. -/
theorem counter_never_decreases_witness :
    (add { NextID := 5, Items := [] } "a" 0).1.NextID = 5 + 1 :=
  counter_never_decreases.1 { NextID := 5, Items := [] } "a" 0 (by decide) (by decide)

/-- C12, counterexample: on the store with the largest `int` as counter, `add`
lowers the counter (to the smallest `int`). -/
theorem add_lowers_counter_at_max :
    (add { NextID := 9223372036854775807, Items := [] } "x" 0).1.NextID
      < 9223372036854775807 := by
  decide

/-- C13: `Load` of a file that does not exist returns normally, prints nothing and
leaves the empty store with counter 1, whatever the receiver held before. -/
theorem Load_absent_file (t : TodoList) :
    Load t .notExist = .ok { NextID := 1, Items := [] } "" :=
  rfl

/-- C14: every task of every store reached from an empty store by a sequence of
`add`, `Complete`, `Edit` and `Delete` calls has a completion timestamp if and only
if its completed flag is true. -/
theorem stamp_iff_completed (n : Int) (ops : List Op) :
    ∀ todo ∈ (runOps { NextID := n, Items := [] } ops).Items,
      (todo.CompletedAt.isSome = true ↔ todo.Completed = true) := by
  intro todo hmem
  have h := stamps_after_runOps ops { NextID := n, Items := [] } (by simp) todo hmem
  unfold StampIffCompleted at h
  rw [h]

/-- C14, witness: the task completed at time 9 in a run of three calls. -/
theorem stamp_iff_completed_witness :
    ((⟨1, "b", true, 2, some 9⟩ : Todo).CompletedAt.isSome = true ↔
      (⟨1, "b", true, 2, some 9⟩ : Todo).Completed = true) :=
  stamp_iff_completed 1 [.add "a" 2, .complete 1 9, .edit 1 "b"] ⟨1, "b", true, 2, some 9⟩
    (by decide)

/-! ## Auxiliary facts on listing and loading -/

theorem listLoop_length (formatTime : Timestamp → String) (l : List Todo) (k : Nat) :
    (listLoop formatTime l k).length = l.length := by
  induction l generalizing k with
  | nil => rfl
  | cons a rest ih => simp [listLoop, ih]

theorem listLoop_getElem (formatTime : Timestamp → String) (l : List Todo) (k i : Nat)
    (todo : Todo) (h : l[i]? = some todo) :
    (listLoop formatTime l k)[i]? = some (listEntry formatTime (k + i) todo) := by
  induction l generalizing k i with
  | nil => simp at h
  | cons a rest ih =>
    cases i with
    | zero =>
      simp only [List.getElem?_cons_zero, Option.some.injEq] at h
      simp [listLoop, h]
    | succ j =>
      simp only [List.getElem?_cons_succ] at h
      have hk : k + 1 + j = k + (j + 1) := by omega
      simp only [listLoop, List.getElem?_cons_succ, ih (k + 1) j h, hk]

theorem maxIDLoop_eq_of_bounds (l : List Todo) (m : Int) (h0 : 0 ≤ m)
    (hub : ∀ x ∈ l, x.ID ≤ m) (hatt : m = 0 ∨ ∃ x ∈ l, x.ID = m) : maxIDLoop 0 l = m := by
  have h1 : maxIDLoop 0 l ≤ m := by
    rcases maxIDLoop_init_or_mem 0 l with h | ⟨y, hy, hyid⟩
    · omega
    · rw [← hyid]; exact hub y hy
  have h2 : m ≤ maxIDLoop 0 l := by
    rcases hatt with h | ⟨y, hy, hyid⟩
    · rw [h]; exact maxIDLoop_ge_init 0 l
    · rw [← hyid]; exact maxIDLoop_ge_mem 0 l y hy
  omega

/-! ## Properties of the specification: command line, listing, loading -/

/-- C15, what the code does: `Save` ends the process with exit code 1 when
`os.Create` fails and when `Encode` fails, for every store.  So every run that
reaches `Save` and meets one of the two errors ends with exit code 1 after the fatal
line, with nothing saved; the run `add x` on an absent file whose `os.Create` fails
prints the confirmation of `add` and the fatal line and ends with exit code 1. -/
theorem Save_failure_exits_one :
    (∀ t err encodeErr,
      Save t (some err) encodeErr = .exit 1 ("❌ failed to save file " ++ err ++ "\n")) ∧
    (∀ t err,
      Save t none (some err) = .exit 1 ("❌ Failed to write to JSON: " ++ err ++ "\n")) ∧
    (∀ env args todos out0 todos2 out,
      Load { NextID := 0, Items := [] } env.file = .ok todos out0 →
      ¬ args.length < 2 →
      runCommand env args (env.toLower (args.getD 1 "")) todos = .ok todos2 out →
      (env.createErr ≠ none ∨ env.encodeErr ≠ none) →
      (main env args).code = 1 ∧ (main env args).saved = none ∧
      (main env args).store = some todos2) ∧
    main { file := .notExist, now := 5, createErr := some "permission denied",
           encodeErr := none, toLower := asciiLower,
           formatTime := fun c => toString c, scanErr := fun _ => "expected integer" }
         ["todo", "add", "x"]
      = { code := 1, out := "✅ Todo added: x\n❌ failed to save file permission denied\n",
          store := some { NextID := 2, Items := [⟨1, "x", false, 5, none⟩] },
          saved := none } := by
  refine ⟨fun _ _ _ => rfl, fun _ _ => rfl, ?_, by decide⟩
  intro env args todos out0 todos2 out hload hlen hcmd herr
  simp only [main, hload, hlen, if_false, hcmd]
  cases hc : env.createErr with
  | some err => exact ⟨rfl, rfl, rfl⟩
  | none =>
    cases he : env.encodeErr with
    | some err => exact ⟨rfl, rfl, rfl⟩
    | none =>
      rcases herr with h | h
      · exact absurd hc h
      · exact absurd he h

/-- C15, witness: the run `list` on an absent file whose `Encode` fails. -/
theorem Save_failure_exits_one_witness :
    (main { file := .notExist, now := 5, createErr := none, encodeErr := some "disk full",
            toLower := asciiLower, formatTime := fun c => toString c,
            scanErr := fun _ => "expected integer" } ["todo", "list"]).code = 1 :=
  (Save_failure_exits_one.2.2.1
    { file := .notExist, now := 5, createErr := none, encodeErr := some "disk full",
      toLower := asciiLower, formatTime := fun c => toString c,
      scanErr := fun _ => "expected integer" }
    ["todo", "list"] { NextID := 1, Items := [] } "" { NextID := 1, Items := [] }
    "No todos yet!\n" rfl (by decide) (by decide) (Or.inr (by decide))).1

/-- C16, what the code does: `parseID` returns 12 for "12abc" and 1 for
"1.5" without ending the process; the run `complete 12abc` on a file that holds the
pending task 12 marks that task as completed, saves the store and ends with exit
code 0.  An argument for which `Sscanf` returns an error (such as "abc") ends the
run of `complete`, `edit` and `delete` with exit code 1, the store as loaded and
nothing saved. -/
theorem parseID_accepts_leading_digits :
    (∀ scanErr, parseID scanErr "12abc" = .ok 12 "") ∧
    (∀ scanErr, parseID scanErr "1.5" = .ok 1 "") ∧
    main { file := .holds ⟨some 13, some [⟨some 12, some "a", some false, some 1, none⟩]⟩,
           now := 5, createErr := none, encodeErr := none, toLower := asciiLower,
           formatTime := fun c => toString c, scanErr := fun _ => "expected integer" }
         ["todo", "complete", "12abc"]
      = { code := 0, out := " 🎯Todo marked as completed: a\n",
          store := some { NextID := 13, Items := [⟨12, "a", true, 1, some 5⟩] },
          saved := some (.holds ⟨some 13,
            some [⟨some 12, some "a", some true, some 1, some 5⟩]⟩) } ∧
    (∀ env args todos out0,
      Load { NextID := 0, Items := [] } env.file = .ok todos out0 →
      (env.toLower (args.getD 1 "") = "complete" ∧ 3 ≤ args.length ∨
       env.toLower (args.getD 1 "") = "edit" ∧ 4 ≤ args.length ∨
       env.toLower (args.getD 1 "") = "delete" ∧ 3 ≤ args.length) →
      scanInt (args.getD 2 "") = none →
      main env args
        = { code := 1,
            out := out0 ++ ("❌ Invalid ID: " ++ env.scanErr (args.getD 2 "") ++ "\n"),
            store := some todos, saved := none }) := by
  refine ⟨fun _ => rfl, fun _ => rfl, by decide, ?_⟩
  intro env args todos out0 hload hcmd hscan
  rcases hcmd with ⟨hc, hlen⟩ | ⟨hc, hlen⟩ | ⟨hc, hlen⟩
  · have h2 : ¬ args.length < 2 := by omega
    have h3 : ¬ args.length < 3 := by omega
    simp only [main, hload, h2, if_false, hc, runCommand, requiredArgs, h3, parseID, hscan,
      errorChecker]
    rfl
  · have h2 : ¬ args.length < 2 := by omega
    have h4 : ¬ args.length < 4 := by omega
    simp only [main, hload, h2, if_false, hc, runCommand, requiredArgs, h4, parseID, hscan,
      errorChecker]
    rfl
  · have h2 : ¬ args.length < 2 := by omega
    have h3 : ¬ args.length < 3 := by omega
    simp only [main, hload, h2, if_false, hc, runCommand, requiredArgs, h3, parseID, hscan,
      errorChecker]
    rfl

/-- C16, witness: the run `delete abc` ends with exit code 1 and the store as loaded. -/
theorem parseID_accepts_leading_digits_witness :
    main { file := .holds ⟨some 13, some [⟨some 12, some "a", some false, some 1, none⟩]⟩,
           now := 5, createErr := none, encodeErr := none, toLower := asciiLower,
           formatTime := fun c => toString c, scanErr := fun _ => "expected integer" }
         ["todo", "delete", "abc"]
      = { code := 1, out := "" ++ ("❌ Invalid ID: " ++ "expected integer" ++ "\n"),
          store := some { NextID := 13, Items := [⟨12, "a", false, 1, none⟩] },
          saved := none } :=
  parseID_accepts_leading_digits.2.2.2
    { file := .holds ⟨some 13, some [⟨some 12, some "a", some false, some 1, none⟩]⟩,
      now := 5, createErr := none, encodeErr := none, toLower := asciiLower,
      formatTime := fun c => toString c, scanErr := fun _ => "expected integer" }
    ["todo", "delete", "abc"] { NextID := 13, Items := [⟨12, "a", false, 1, none⟩] } ""
    rfl (Or.inr (Or.inr ⟨by decide, by decide⟩)) (by decide)

/-- C17: `List` leaves the store as it is.  On a store without tasks it prints the
single line "No todos yet!".  On a store with tasks it prints one entry per task, in
store order; the entry of the task at index `i` starts with the position `i + 1`,
the title and the id, shows the status "Done" exactly when the completed flag is
true and "Pending" exactly when it is false, then the creation time, and has a
"Finished" part exactly when the task has a completion timestamp. -/
theorem List_prints_entries (t : TodoList) (formatTime : Timestamp → String) :
    (ListItems t formatTime).1 = t ∧
    (t.Items = [] → (ListItems t formatTime).2 = "No todos yet!\n") ∧
    (t.Items ≠ [] → (ListItems t formatTime).2 = String.join (listLoop formatTime t.Items 0)) ∧
    (listLoop formatTime t.Items 0).length = t.Items.length ∧
    (∀ i todo, t.Items[i]? = some todo →
      ∃ status finished,
        (listLoop formatTime t.Items 0)[i]?
          = some (toString (i + 1) ++ ". " ++ todo.Title ++ " | (ID:" ++ toString todo.ID
                  ++ ") | " ++ status ++ " | Created: " ++ formatTime todo.CreatedAt
                  ++ finished ++ "\n") ∧
        (status = "✅ Done" ↔ todo.Completed = true) ∧
        (status = "⏳ Pending" ↔ todo.Completed = false) ∧
        (finished = "" ↔ todo.CompletedAt = none) ∧
        (∀ c, todo.CompletedAt = some c → finished = " | Finished: " ++ formatTime c)) := by
  refine ⟨?_, ?_, ?_, listLoop_length formatTime t.Items 0, ?_⟩
  · unfold ListItems
    split <;> rfl
  · intro h
    simp [ListItems, h]
  · intro h
    have hlen : ¬ t.Items.length = 0 := fun h0 => h (List.length_eq_zero.mp h0)
    simp [ListItems, hlen]
  · intro i todo hi
    have hget := listLoop_getElem formatTime t.Items 0 i todo hi
    rw [Nat.zero_add] at hget
    refine ⟨if todo.Completed then "✅ Done" else "⏳ Pending",
      (match todo.CompletedAt with
        | some c => " | Finished: " ++ formatTime c
        | none => ""), hget, ?_, ?_, ?_, ?_⟩
    · cases todo.Completed <;> decide
    · cases todo.Completed <;> decide
    · cases hc : todo.CompletedAt with
      | none => simp
      | some c =>
        simp only [reduceCtorEq, iff_false]
        intro h
        have hl := congrArg String.length h
        rw [String.length_append] at hl
        have h13 : (" | Finished: " : String).length = 13 := by decide
        have h00 : ("" : String).length = 0 := by decide
        omega
    · intro c hc
      rw [hc]

/-- C17, witness: the listing of a store with a pending and a completed task. -/
theorem List_prints_entries_witness :
    (ListItems ⟨3, [⟨1, "a", false, 4, none⟩, ⟨2, "b", true, 5, some 6⟩]⟩
        (fun c => toString c)).2
      = String.join (listLoop (fun c => toString c)
          [⟨1, "a", false, 4, none⟩, ⟨2, "b", true, 5, some 6⟩] 0) ∧
    (ListItems ⟨3, [⟨1, "a", false, 4, none⟩, ⟨2, "b", true, 5, some 6⟩]⟩
        (fun c => toString c)).2
      = "1. a | (ID:1) | ⏳ Pending | Created: 4\n2. b | (ID:2) | ✅ Done | Created: 5 | Finished: 6\n" :=
  ⟨(List_prints_entries ⟨3, [⟨1, "a", false, 4, none⟩, ⟨2, "b", true, 5, some 6⟩]⟩
      (fun c => toString c)).2.2.1 (by decide), by decide⟩

/-- C18 (amended): on a run whose `Load` returns (the file is absent or decodes).
With no command the run prints the general usage line and ends with exit code 0,
nothing saved.  With `add`, `complete` or `delete` and no further argument, or
`edit` with fewer than two, it prints the usage line of the command and ends with
exit code 1, the store as loaded and nothing saved.  With a command that is none of
the five it applies no operation to the loaded store, and when `Save` meets no
error it prints the "unknown command" line, saves the loaded store and ends with
exit code 0. -/
theorem usage_and_unknown_command (env : Env) (args : List String) (todos : TodoList)
    (out0 : String) (hload : Load { NextID := 0, Items := [] } env.file = .ok todos out0) :
    (args.length < 2 →
      main env args
        = { code := 0,
            out := out0 ++ "Usage: go run main.go [add|list|complete|edit|delete] ...\n",
            store := some todos, saved := none }) ∧
    (args.length = 2 → env.toLower (args.getD 1 "") = "add" →
      main env args
        = { code := 1, out := out0 ++ "Usage: go run main.go add <title>\n",
            store := some todos, saved := none }) ∧
    (args.length = 2 → env.toLower (args.getD 1 "") = "complete" →
      main env args
        = { code := 1, out := out0 ++ "Usage: go run main.go complete <id>\n",
            store := some todos, saved := none }) ∧
    (args.length = 2 → env.toLower (args.getD 1 "") = "delete" →
      main env args
        = { code := 1, out := out0 ++ "Usage: go run main.go delete <id>\n",
            store := some todos, saved := none }) ∧
    (2 ≤ args.length → args.length < 4 → env.toLower (args.getD 1 "") = "edit" →
      main env args
        = { code := 1, out := out0 ++ "Usage: go run main.go edit <id> <new title>\n",
            store := some todos, saved := none }) ∧
    (2 ≤ args.length →
      env.toLower (args.getD 1 "") ∉ ["add", "list", "complete", "edit", "delete"] →
      (main env args).store = some todos ∧
      (env.createErr = none → env.encodeErr = none →
        main env args
          = { code := 0,
              out := out0 ++ ("⚠️Unknown command: " ++ env.toLower (args.getD 1 "") ++ "\n"),
              store := some todos, saved := some (.holds (encodeList todos)) })) := by
  refine ⟨?_, ?_, ?_, ?_, ?_, ?_⟩
  · intro hlen
    simp only [main, hload, hlen, if_true]
  · intro hlen hc
    have h2 : ¬ args.length < 2 := by omega
    have h3 : args.length < 3 := by omega
    simp only [main, hload, h2, if_false, hc, runCommand, requiredArgs, h3, if_true]
    rfl
  · intro hlen hc
    have h2 : ¬ args.length < 2 := by omega
    have h3 : args.length < 3 := by omega
    simp only [main, hload, h2, if_false, hc, runCommand, requiredArgs, h3, if_true]
    rfl
  · intro hlen hc
    have h2 : ¬ args.length < 2 := by omega
    have h3 : args.length < 3 := by omega
    simp only [main, hload, h2, if_false, hc, runCommand, requiredArgs, h3, if_true]
    rfl
  · intro hlen hlen4 hc
    have h2 : ¬ args.length < 2 := by omega
    simp only [main, hload, h2, if_false, hc, runCommand, requiredArgs, hlen4, if_true]
    rfl
  · intro hlen hnot
    have h2 : ¬ args.length < 2 := by omega
    simp only [List.mem_cons, List.mem_singleton, List.not_mem_nil, or_false, not_or] at hnot
    obtain ⟨n1, n2, n3, n4, n5⟩ := hnot
    have hrun : runCommand env args (env.toLower (args.getD 1 "")) todos
        = .ok todos ("⚠️Unknown command: " ++ env.toLower (args.getD 1 "") ++ "\n") := by
      simp only [runCommand, n1, n2, n3, n4, n5, if_false]
    refine ⟨?_, ?_⟩
    · simp only [main, hload, h2, if_false, hrun]
      cases Save todos env.createErr env.encodeErr <;> rfl
    · intro hc he
      simp only [main, hload, h2, if_false, hrun, hc, he, Save, String.append_empty]

/-- C18, witness: `add` without a title on an absent file. -/
theorem usage_and_unknown_command_witness :
    main { file := .notExist, now := 5, createErr := none, encodeErr := none,
           toLower := asciiLower, formatTime := fun c => toString c,
           scanErr := fun _ => "expected integer" } ["todo", "ADD"]
      = { code := 1, out := "" ++ "Usage: go run main.go add <title>\n",
          store := some { NextID := 1, Items := [] }, saved := none } :=
  (usage_and_unknown_command
    { file := .notExist, now := 5, createErr := none, encodeErr := none,
      toLower := asciiLower, formatTime := fun c => toString c,
      scanErr := fun _ => "expected integer" } ["todo", "ADD"]
    { NextID := 1, Items := [] } "" rfl).2.1 (by decide) (by decide)

/-- C18, counterexample: when the file is malformed, the run without command, and the
run of `add` without a title, print the fatal line of `Load` instead of a usage line
and end with exit code 1. -/
theorem malformed_file_hides_usage :
    main { file := .malformed "unexpected end of JSON input", now := 5, createErr := none,
           encodeErr := none, toLower := asciiLower, formatTime := fun c => toString c,
           scanErr := fun _ => "expected integer" } ["todo"]
      = { code := 1, out := "❌ failed to decode JSON unexpected end of JSON input\n",
          store := none, saved := none } ∧
    main { file := .malformed "unexpected end of JSON input", now := 5, createErr := none,
           encodeErr := none, toLower := asciiLower, formatTime := fun c => toString c,
           scanErr := fun _ => "expected integer" } ["todo", "add"]
      = { code := 1, out := "❌ failed to decode JSON unexpected end of JSON input\n",
          store := none, saved := none } := by
  decide

/-- C19 (amended): let `m` be the largest of 0 and all task ids of the decoded file
and `c` the decoded counter.  When the ids are `int` values, the counter that
reaches the final test `t.NextID == 0` is not zero, so that test never fires.  When
moreover `m` is below the largest `int`, `Load` leaves the counter `max c (m + 1)`,
which is at least 1, and a decoded counter greater than `m` is kept as it is. -/
theorem Load_counter_is_max (t0 : TodoList) (doc : TodoListJSON) (m : Int)
    (h0 : 0 ≤ m) (hub : ∀ x ∈ (decodeInto t0 doc).Items, x.ID ≤ m)
    (hatt : m = 0 ∨ ∃ x ∈ (decodeInto t0 doc).Items, x.ID = m) (hint : m ≤ maxInt) :
    maxIDLoop 0 (decodeInto t0 doc).Items = m ∧
    (if (decodeInto t0 doc).NextID ≤ m then wrapInt (m + 1)
      else (decodeInto t0 doc).NextID) ≠ 0 ∧
    (m < maxInt →
      Load t0 (.holds doc)
        = .ok { NextID := max (decodeInto t0 doc).NextID (m + 1),
                Items := (decodeInto t0 doc).Items } "" ∧
      1 ≤ max (decodeInto t0 doc).NextID (m + 1) ∧
      (m < (decodeInto t0 doc).NextID →
        Load t0 (.holds doc) = .ok (decodeInto t0 doc) "")) := by
  have hm := maxIDLoop_eq_of_bounds (decodeInto t0 doc).Items m h0 hub hatt
  refine ⟨hm, ?_, ?_⟩
  · unfold maxInt at hint
    split
    · unfold wrapInt
      omega
    · omega
  · intro hlt
    have hload : Load t0 (.holds doc)
        = .ok { NextID := max (decodeInto t0 doc).NextID (m + 1),
                Items := (decodeInto t0 doc).Items } "" := by
      simp only [Load]
      by_cases hle : (decodeInto t0 doc).NextID ≤ m
      · rw [normalize_of_le (decodeInto t0 doc) (by rw [hm]; exact hle)
          (by rw [hm]; exact hlt), hm, max_eq_right (by omega)]
      · have hpos : 0 < (decodeInto t0 doc).NextID := by omega
        have habove : CounterAbove (decodeInto t0 doc) := by
          intro x hx
          have := hub x hx
          omega
        rw [normalize_of_above (decodeInto t0 doc) hpos habove, max_eq_left (by omega)]
    refine ⟨hload, ?_, ?_⟩
    · exact le_trans (by omega) (le_max_right _ _)
    · intro hgt
      rw [hload, max_eq_left (by omega)]

/-- C19, witness: a file with counter 9 and the task ids 3 and 7 keeps the counter 9. -/
theorem Load_counter_is_max_witness :
    Load ⟨0, []⟩ (.holds ⟨some 9, some [⟨some 3, some "a", some false, some 0, none⟩,
                                        ⟨some 7, some "b", some false, some 0, none⟩]⟩)
      = .ok { NextID := max (decodeInto ⟨0, []⟩
                ⟨some 9, some [⟨some 3, some "a", some false, some 0, none⟩,
                               ⟨some 7, some "b", some false, some 0, none⟩]⟩).NextID (7 + 1),
              Items := (decodeInto ⟨0, []⟩
                ⟨some 9, some [⟨some 3, some "a", some false, some 0, none⟩,
                               ⟨some 7, some "b", some false, some 0, none⟩]⟩).Items } "" :=
  ((Load_counter_is_max ⟨0, []⟩
    ⟨some 9, some [⟨some 3, some "a", some false, some 0, none⟩,
                   ⟨some 7, some "b", some false, some 0, none⟩]⟩ 7
    (by decide) (by decide) (Or.inr (by decide)) (by decide)).2.2 (by decide)).1

/-- C19, counterexample: for a file with counter 3 whose single task id is the
largest `int`, `Load` leaves the smallest `int` as counter: this is not the larger
of 3 and that id plus one, and it is not at least 1. -/
theorem Load_counter_below_one :
    Load ⟨0, []⟩ (.holds ⟨some 3,
        some [⟨some 9223372036854775807, some "a", some false, some 0, none⟩]⟩)
      = .ok ⟨-9223372036854775808, [⟨9223372036854775807, "a", false, 0, none⟩]⟩ "" ∧
    (-9223372036854775808 : Int) ≠ max 3 (9223372036854775807 + 1) ∧
    ¬ (1 ≤ (-9223372036854775808 : Int)) := by
  decide

/-- C20: on a store whose task ids are pairwise distinct, `Delete(id)` leaves no task
with that id and the ids stay pairwise distinct.  A store with a repeated id, as
`Load` returns it for a file that holds the id twice, still holds a task with that id
after `Delete(id)`. -/
theorem Delete_clears_id_when_distinct :
    (∀ t id, (t.Items.map (fun x => x.ID)).Nodup →
      (∀ x ∈ (Delete t id).1.Items, x.ID ≠ id) ∧
      ((Delete t id).1.Items.map (fun x => x.ID)).Nodup) ∧
    (∃ doc t, Load { NextID := 0, Items := [] } (.holds doc) = .ok t "" ∧
      ¬ (t.Items.map (fun x => x.ID)).Nodup ∧
      ∃ x ∈ (Delete t 2).1.Items, x.ID = 2) := by
  refine ⟨?_, ?_⟩
  · intro t id hnd
    refine ⟨?_, hnd.sublist (Delete_ids_sublist t id)⟩
    by_cases hex : ∃ x ∈ t.Items, x.ID = id
    · obtain ⟨pre, todo, post, hf⟩ := exists_first_with_id id t.Items hex
      rw [Delete_at_first hf]
      rw [hf.1, List.map_append, List.map_cons] at hnd
      have hpost : id ∉ post.map (fun x => x.ID) := by
        have h1 := (List.nodup_cons.mp (List.Nodup.of_append_right hnd)).1
        rw [hf.2.1] at h1
        exact h1
      intro x hx hxid
      have hx2 : x ∈ pre ++ post := hx
      rcases List.mem_append.mp hx2 with hx3 | hx3
      · exact hf.2.2 x hx3 hxid
      · exact hpost (hxid ▸ List.mem_map_of_mem (fun x => x.ID) hx3)
    · have h2 : ∀ x ∈ t.Items, x.ID ≠ id := fun x hx hid => hex ⟨x, hx, hid⟩
      rw [Delete_not_found h2]
      exact h2
  · refine ⟨⟨some 3, some [⟨some 2, some "a", some false, some 0, none⟩,
                           ⟨some 2, some "b", some false, some 1, none⟩]⟩,
      ⟨3, [⟨2, "a", false, 0, none⟩, ⟨2, "b", false, 1, none⟩]⟩, by decide, by decide,
      ⟨2, "b", false, 1, none⟩, by decide, rfl⟩

/-- C20, witness: deleting id 2 from a store with the ids 1, 2, 3. -/
theorem Delete_clears_id_when_distinct_witness :
    (∀ x ∈ (Delete ⟨4, [⟨1, "a", false, 0, none⟩, ⟨2, "b", false, 0, none⟩,
                        ⟨3, "c", false, 0, none⟩]⟩ 2).1.Items, x.ID ≠ 2) :=
  (Delete_clears_id_when_distinct.1
    ⟨4, [⟨1, "a", false, 0, none⟩, ⟨2, "b", false, 0, none⟩, ⟨3, "c", false, 0, none⟩]⟩ 2
    (by decide)).1

end TodoApp
